import Mathlib

/-!
Shallow embedding of the AutoSubSync subtitle-track pipeline
(src/main/functions/subtitle_track_selector.py and
src/main/functions/enhanced_alass_integration.py).

External effects (filesystem existence, the ffprobe / ffmpeg / alass
executables, the interactive selection dialog) are modelled by an
explicit environment record; each embedded function returns its value
together with the list of external-tool invocations it performs, so
that claims about which external requests happen become provable
statements.  Machine behaviour that the Python code reaches through
exceptions (subprocess failure, timeout, JSON parse errors) is encoded
by the RunOutcome type: the Lean functions are total and return the
value the except-handler of the Python code produces.
-/

/-! ## Path helpers, modelling the posix behaviour of os.path -/

/-- Scan of the first n positions of a character list for the last
occurrence of a character, -1 when none occurs among them. -/
def liAux (cs : List Char) (c : Char) (n : Nat) : Int :=
  (List.range n).foldl
    (fun acc i => if cs.get? i = some c then (i : Int) else acc) (-1)

/-- Index of the last occurrence of a character in a character list,
as an integer; -1 when the character does not occur.  Models the
Python str.rfind used by os.path.splitext. -/
def lastIndexOf (cs : List Char) (c : Char) : Int :=
  liAux cs c cs.length

/-- Model of os.path.splitext (posix): split at the last dot of the
final path component, except when that component consists only of
leading dots up to the split point. -/
def splitext (p : String) : String × String :=
  let cs := p.toList
  let sepIndex := lastIndexOf cs '/'
  let dotIndex := lastIndexOf cs '.'
  if sepIndex < dotIndex then
    if (List.range' (sepIndex + 1).toNat (dotIndex.toNat - (sepIndex + 1).toNat)).all
        (fun i => cs.get? i = some '.') then
      (p, "")
    else
      (String.mk (cs.take dotIndex.toNat), String.mk (cs.drop dotIndex.toNat))
  else (p, "")

/-- Model of os.path.basename (posix): everything after the last slash. -/
def basename (p : String) : String :=
  String.mk (p.toList.drop ((lastIndexOf p.toList '/') + 1).toNat)

/-- Character-level prefix test (kernel-computable counterpart of
String.startsWith). -/
def strStartsWith (s pre : String) : Bool :=
  pre.toList.isPrefixOf s.toList

/-- Character-level suffix test (kernel-computable counterpart of
String.endsWith). -/
def strEndsWith (s post : String) : Bool :=
  post.toList.isSuffixOf s.toList

/-- Model of os.path.join (posix, two arguments). -/
def joinPath (a b : String) : String :=
  if strStartsWith b "/" then b
  else if a = "" ∨ strEndsWith a "/" then a ++ b
  else a ++ "/" ++ b

/-- Model of the Python substring test (needle in hay). -/
def containsSub (needle hay : String) : Bool :=
  (List.range (hay.toList.length + 1)).any
    (fun i => needle.toList.isPrefixOf (hay.toList.drop i))

/-- Model of the Python str.lower (ASCII case folding). -/
def pyLower (s : String) : String :=
  String.mk (s.toList.map Char.toLower)

/-! ## Data model -/

/-- One stream object of the ffprobe JSON output, restricted to the
fields the Python code reads.  A missing key is modelled by none
(the Python code uses dict.get with a default). -/
structure RawStream where
  codec_type : Option String
  index : Option Nat
  codec_name : Option String
  language : Option String
  title : Option String
deriving DecidableEq, Repr

/-- The track-info dictionary built by get_subtitle_tracks. -/
structure TrackDescriptor where
  index : Nat
  codec_name : String
  language : String
  title : String
  display_name : String
deriving DecidableEq, Repr

/-- Outcome of one external subprocess run: fail covers every path the
Python code reaches through its except handler (exception inside
subprocess.run, timeout, parse error downstream), done carries the
returncode and the parsed output. -/
inductive RunOutcome (α : Type) where
  | fail : RunOutcome α
  | done : Int → α → RunOutcome α
deriving DecidableEq, Repr

/-- External-tool invocations observable in the embedding: the ffprobe
probe of a video, the ffmpeg extraction request (video, mapped subtitle
stream number, codec argument, output path), and the alass launch. -/
inductive ExtCall where
  | ffprobe : String → ExtCall
  | ffmpeg : String → Nat → String → String → ExtCall
  | alass : String → String → String → ExtCall
deriving DecidableEq, Repr

/-- True exactly on ffmpeg extraction requests; an extraction request
is the only way a temporary extracted-subtitle file can come into
being. -/
def isExtractCall : ExtCall → Bool
  | ExtCall.ffmpeg _ _ _ _ => true
  | _ => false

/-- Environment: filesystem and external-process behaviour visible to
the embedded functions.  pathExists is the state before extraction,
existsAfter the state consulted after the ffmpeg run. -/
structure Env where
  pathExists : String → Bool
  existsAfter : String → Bool
  ffprobePath : String
  ffmpegPath : String
  alassPath : String
  tempDir : String
  probeRun : RunOutcome (Option (List RawStream))
  ffmpegRun : RunOutcome Unit
  dialog : List TrackDescriptor → Option TrackDescriptor

/-! ## Track Prober (get_subtitle_tracks) -/

/-- Build one track-info record from the ffprobe stream object at
enumeration position i, exactly as the loop body of
get_subtitle_tracks does: defaults unknown / unknown / empty title,
stream index defaulting to the enumeration position, and the
display-name parts appended in order. -/
def mkTrackInfo (i : Nat) (s : RawStream) : TrackDescriptor :=
  let idx := s.index.getD i
  let codec := s.codec_name.getD "unknown"
  let lang := s.language.getD "unknown"
  let ttl := s.title.getD ""
  let parts :=
    ["Track " ++ toString (i + 1)]
    ++ (if lang ≠ "unknown" then ["(" ++ lang ++ ")"] else [])
    ++ (if ttl ≠ "" then ["- " ++ ttl] else [])
    ++ (if codec ≠ "unknown" then ["[" ++ codec ++ "]"] else [])
  { index := idx, codec_name := codec, language := lang, title := ttl,
    display_name := String.intercalate " " parts }

/-- Embedding of get_subtitle_tracks.  Returns the track list together
with the external invocations performed.  Missing video or missing
ffprobe executable return before any invocation; a failed run,
non-zero exit or unparseable output return the empty list after the
one probe invocation. -/
def get_subtitle_tracks (env : Env) (video_path : String) :
    List TrackDescriptor × List ExtCall :=
  if env.pathExists video_path = false then ([], [])
  else if env.pathExists env.ffprobePath = false then ([], [])
  else
    match env.probeRun with
    | RunOutcome.fail => ([], [ExtCall.ffprobe video_path])
    | RunOutcome.done rc out =>
      if rc ≠ 0 then ([], [ExtCall.ffprobe video_path])
      else
        match out with
        | none => ([], [ExtCall.ffprobe video_path])
        | some streams =>
          ((streams.enum.filter
              (fun p => p.2.codec_type = some "subtitle")).map
            (fun p => mkTrackInfo p.1 p.2),
           [ExtCall.ffprobe video_path])

/-! ## Track Extractor (extract_subtitle_track) -/

/-- The codec-to-container format map of extract_subtitle_track,
with the srt default for unknown codecs. -/
def format_map (codec_name : String) : String :=
  if codec_name = "subrip" then "srt"
  else if codec_name = "ass" then "ass"
  else if codec_name = "webvtt" then "vtt"
  else if codec_name = "mov_text" then "srt"
  else "srt"

/-- Embedding of extract_subtitle_track.  The caller-supplied output
path has its extension rewritten to the resolved format; the ffmpeg
request carries the rewritten path and the codec argument (copy for
ass, srt otherwise).  The boolean result is true only when the run
finished with exit code zero and the rewritten output path exists
afterwards; a missing ffmpeg executable, an exception or a timeout
yield false (the function is total: nothing is raised). -/
def extract_subtitle_track (env : Env) (video_path : String)
    (track_index : Nat) (output_path : String) (codec_name : String) :
    Bool × List ExtCall :=
  if env.pathExists env.ffmpegPath = false then (false, [])
  else
    let out_path := (splitext output_path).1 ++ "." ++ format_map codec_name
    let call := ExtCall.ffmpeg video_path track_index
      (if codec_name = "ass" then "copy" else "srt") out_path
    match env.ffmpegRun with
    | RunOutcome.fail => (false, [call])
    | RunOutcome.done rc _ =>
      ((rc == 0) && env.existsAfter out_path, [call])

/-! ## Track Ranker (get_best_subtitle_track) -/

/-- The language comparison of the ranker loop:
track.get("language", "").lower() == preferred_language.lower(). -/
def langMatches (t : TrackDescriptor) (preferred : String) : Bool :=
  pyLower t.language == pyLower preferred

/-- The enumerate loop of get_best_subtitle_track: position of the
first descriptor whose language matches, if any. -/
def scanBest (preferred : String) : List TrackDescriptor → Option Nat
  | [] => none
  | t :: ts =>
    if langMatches t preferred then some 0
    else (scanBest preferred ts).map (· + 1)

/-- Embedding of get_best_subtitle_track: none on the empty list,
the position of the first language match otherwise, position 0 when
no language matches. -/
def get_best_subtitle_track (tracks : List TrackDescriptor)
    (preferred_language : String) : Option Nat :=
  if tracks = [] then none
  else
    match scanBest preferred_language tracks with
    | some i => some i
    | none => some 0

/-! ## Selection Resolver (the track-choice block of
extract_best_subtitle_for_alass, lines 35-57 of
enhanced_alass_integration.py, including the empty-list guard that
precedes it) -/

/-- The selection logic of extract_best_subtitle_for_alass in source
order: the empty-track guard returns none first; then a pre-supplied
track is used verbatim; then auto-select (or a single track) runs the
ranker; otherwise the dialog is consulted when a parent window exists,
and the first track is used when it does not. -/
def resolve_selection (dialog : List TrackDescriptor → Option TrackDescriptor)
    (parent_window : Bool) (tracks : List TrackDescriptor)
    (selected_track : Option TrackDescriptor) (auto_select : Bool)
    (preferred_language : String) : Option TrackDescriptor :=
  if tracks = [] then none
  else
    match selected_track with
    | some t => some t
    | none =>
      if auto_select = true ∨ tracks.length = 1 then
        match get_best_subtitle_track tracks preferred_language with
        | some i => tracks.get? i
        | none => none
      else if parent_window then dialog tracks
      else tracks.head?

/-! ## Sync Job Orchestrator (extract_best_subtitle_for_alass and
run_alass_with_subtitle_track) -/

/-- The deterministic temporary path extract_best_subtitle_for_alass
builds for a resolved track: the video base name, the literal marker,
the stream index of the track and the fixed .srt extension, joined
under the temporary directory. -/
def tempPathFor (env : Env) (video_path : String) (t : TrackDescriptor) : String :=
  joinPath env.tempDir
    ((splitext (basename video_path)).1 ++ "_extracted_track_"
      ++ toString t.index ++ ".srt")

/-- Embedding of extract_best_subtitle_for_alass: existence guard on
the video, probe, selection, then extraction into the temporary .srt
path; the extracted path is returned only when the extractor reported
success and that .srt path exists afterwards.  The second component
collects the external invocations performed. -/
def extract_best_subtitle_for_alass (env : Env) (video_path : String)
    (parent_window : Bool) (selected_track : Option TrackDescriptor)
    (auto_select : Bool) (preferred_language : String) :
    Option String × List ExtCall :=
  if env.pathExists video_path = false then (none, [])
  else
    match resolve_selection env.dialog parent_window
        (get_subtitle_tracks env video_path).1 selected_track auto_select
        preferred_language with
    | none => (none, (get_subtitle_tracks env video_path).2)
    | some t =>
      if (extract_subtitle_track env video_path t.index
            (tempPathFor env video_path t) t.codec_name).1
          && env.existsAfter (tempPathFor env video_path t) then
        (some (tempPathFor env video_path t),
         (get_subtitle_tracks env video_path).2
           ++ (extract_subtitle_track env video_path t.index
                (tempPathFor env video_path t) t.codec_name).2)
      else
        (none,
         (get_subtitle_tracks env video_path).2
           ++ (extract_subtitle_track env video_path t.index
                (tempPathFor env video_path t) t.codec_name).2)

/-- The alass launch assembled by run_alass_with_subtitle_track:
the command line and the reference file it embeds. -/
structure AlassLaunch where
  cmd : List String
  reference_file : String
deriving DecidableEq, Repr

/-- Embedding of run_alass_with_subtitle_track: extraction first, then
the fallback to the raw video path when no extracted path (or an empty
one, by Python truthiness) came back, then the alass launch with the
positional arguments followed by the extra arguments. -/
def run_alass_with_subtitle_track (env : Env)
    (video_path subtitle_path output_path : String)
    (additional_args : List String) (selected_track : Option TrackDescriptor)
    (parent_window : Bool) (auto_select_track : Bool)
    (preferred_language : String) : AlassLaunch × List ExtCall :=
  let r := extract_best_subtitle_for_alass env video_path parent_window
    selected_track auto_select_track preferred_language
  let reference_file :=
    match r.1 with
    | none => video_path
    | some p => if p = "" then video_path else p
  ({ cmd := [env.alassPath, reference_file, subtitle_path, output_path]
       ++ additional_args,
     reference_file := reference_file },
   r.2 ++ [ExtCall.alass reference_file subtitle_path output_path])

/-! ## Artifact Cleaner (cleanup_extracted_subtitle) -/

/-- The observable effect of cleanup_extracted_subtitle. -/
inductive CleanupAction where
  | removed : String → CleanupAction
  | noop : CleanupAction
deriving DecidableEq, Repr

/-- Embedding of cleanup_extracted_subtitle: delete only when the path
is non-empty (Python truthiness), exists, contains the temporary
directory as a substring, and its basename contains the literal
marker; every failure of the guard, and any exception, leaves the
filesystem untouched. -/
def cleanup_extracted_subtitle (env : Env) (subtitle_path : String) :
    CleanupAction :=
  if subtitle_path ≠ "" ∧ env.pathExists subtitle_path = true then
    if containsSub env.tempDir subtitle_path = true
        ∧ containsSub "_extracted_track_" (basename subtitle_path) = true then
      CleanupAction.removed subtitle_path
    else CleanupAction.noop
  else CleanupAction.noop

/-- Follows the wording of the specification (not the code): a path
resides under a directory when the directory plus the path separator
is a prefix of the path. -/
def residesUnderDir (p d : String) : Bool :=
  strStartsWith p (d ++ "/")

/-! ## Concrete scenario environments -/

/-- An English subrip stream at container index 2 (probe position 0). -/
def sEn : RawStream :=
  ⟨some "subtitle", some 2, some "subrip", some "en", some "English"⟩

/-- A Spanish subrip stream at container index 3 (probe position 1). -/
def sEs : RawStream :=
  ⟨some "subtitle", some 3, some "subrip", some "es", some "Spanish"⟩

/-- A Spanish advanced-styled (ass) stream at container index 3. -/
def sEsAss : RawStream :=
  ⟨some "subtitle", some 3, some "ass", some "es", some "Spanish"⟩

/-- Everything exists, the probe returns the en/es subrip streams, the
ffmpeg run exits zero, extraction output exists afterwards. -/
def envA : Env :=
  ⟨fun _ => true, fun _ => true,
   "/app/resources/ffmpeg-bin/ffprobe", "/app/resources/ffmpeg-bin/ffmpeg",
   "/app/resources/alass-bin/alass-cli", "/tmp",
   RunOutcome.done 0 (some [sEn, sEs]), RunOutcome.done 0 (),
   fun _ => none⟩

/-- Like envA, but the Spanish stream is ass-encoded and after the
ffmpeg run only the .ass output exists, not the .srt-named temporary
path the orchestrator checks. -/
def envAss : Env :=
  ⟨fun _ => true, fun p => p = "/tmp/movie_extracted_track_3.ass",
   "/app/resources/ffmpeg-bin/ffprobe", "/app/resources/ffmpeg-bin/ffmpeg",
   "/app/resources/alass-bin/alass-cli", "/tmp",
   RunOutcome.done 0 (some [sEn, sEsAss]), RunOutcome.done 0 (),
   fun _ => none⟩

/-- Everything exists but the probe reports zero subtitle streams. -/
def envEmpty : Env :=
  ⟨fun _ => true, fun _ => true,
   "/app/resources/ffmpeg-bin/ffprobe", "/app/resources/ffmpeg-bin/ffmpeg",
   "/app/resources/alass-bin/alass-cli", "/tmp",
   RunOutcome.done 0 (some []), RunOutcome.done 0 (),
   fun _ => none⟩

/-- No path exists at all. -/
def envNoFiles : Env :=
  ⟨fun _ => false, fun _ => false,
   "/app/resources/ffmpeg-bin/ffprobe", "/app/resources/ffmpeg-bin/ffmpeg",
   "/app/resources/alass-bin/alass-cli", "/tmp",
   RunOutcome.fail, RunOutcome.fail,
   fun _ => none⟩

/-- Every path exists; used to exercise the cleaner guard. -/
def envClean : Env :=
  ⟨fun _ => true, fun _ => true,
   "/app/resources/ffmpeg-bin/ffprobe", "/app/resources/ffmpeg-bin/ffmpeg",
   "/app/resources/alass-bin/alass-cli", "/tmp",
   RunOutcome.fail, RunOutcome.fail,
   fun _ => none⟩

/-- The two probed descriptors of the envA scenario. -/
def tEn : TrackDescriptor :=
  ⟨2, "subrip", "en", "English", "Track 1 (en) - English [subrip]"⟩

/-- The Spanish descriptor of the envA scenario (probe position 1,
container stream index 3). -/
def tEs : TrackDescriptor :=
  ⟨3, "subrip", "es", "Spanish", "Track 2 (es) - Spanish [subrip]"⟩

/-- A pre-supplied descriptor used in resolver claims. -/
def tPre : TrackDescriptor :=
  ⟨7, "subrip", "de", "German", "Track 1 (de) - German [subrip]"⟩

/-- Follows the wording of the specification (not the code): start
with the Track part carrying the 1-based position, append the
parenthesized language if known, the dashed title if non-empty and the
bracketed codec if known, joining the present parts with single
spaces. -/
def displayNameSpec (pos : Nat) (language title codec_name : String) : String :=
  String.intercalate " "
    (([some ("Track " ++ toString pos),
       if language ≠ "unknown" then some ("(" ++ language ++ ")") else none,
       if title ≠ "" then some ("- " ++ title) else none,
       if codec_name ≠ "unknown" then some ("[" ++ codec_name ++ "]")
       else none]).filterMap id)

/-! ## Helper lemmas -/

/-- The path model reproduces the posix splitext and basename
behaviour on representative cases (extension split at the last dot,
no split for a dot inside a directory name or a leading dot,
basename after the last slash). -/
theorem path_model_cases :
    splitext "x.txt" = ("x", ".txt") ∧ splitext "/a.d/b" = ("/a.d/b", "") ∧
    splitext ".bashrc" = (".bashrc", "") ∧ basename "/tmp/a.srt" = "a.srt" := by
  decide

theorem append_ne_empty_right (a b : String) (hb : b ≠ "") : a ++ b ≠ "" := by
  intro h
  have hd2 : a.data ++ b.data = [] := congrArg String.data h
  have hb2 : b.data = [] := (List.append_eq_nil.mp hd2).2
  apply hb
  exact congrArg String.mk hb2

theorem joinPath_ne_empty (a b : String) (hb : b ≠ "") : joinPath a b ≠ "" := by
  unfold joinPath
  split
  · exact hb
  · split
    · exact append_ne_empty_right a b hb
    · exact append_ne_empty_right (a ++ "/") b hb

theorem tempPathFor_ne_empty (env : Env) (vp : String) (t : TrackDescriptor) :
    tempPathFor env vp t ≠ "" := by
  unfold tempPathFor
  exact joinPath_ne_empty _ _
    (append_ne_empty_right _ ".srt" (by decide))

theorem liAux_succ (cs : List Char) (c : Char) (n : Nat) :
    liAux cs c (n + 1) =
      if cs.get? n = some c then (n : Int) else liAux cs c n := by
  unfold liAux
  rw [List.range_succ, List.foldl_append]
  rfl

theorem liAux_ge_neg_one (cs : List Char) (c : Char) :
    ∀ n, -1 ≤ liAux cs c n := by
  intro n
  induction n with
  | zero => exact le_refl _
  | succ k ih =>
    rw [liAux_succ]
    split
    · omega
    · exact ih

theorem le_liAux_of_get? (cs : List Char) (c : Char) (i : Nat)
    (h : cs.get? i = some c) :
    ∀ n, i < n → (i : Int) ≤ liAux cs c n := by
  intro n
  induction n with
  | zero => intro hik; omega
  | succ k ih =>
    intro hik
    rw [liAux_succ]
    by_cases hk : cs.get? k = some c
    · rw [if_pos hk]
      have : i ≤ k := Nat.lt_succ_iff.mp hik
      exact_mod_cast this
    · rw [if_neg hk]
      rcases Nat.lt_succ_iff_lt_or_eq.mp hik with h1 | h1
      · exact ih h1
      · subst h1; exact absurd h hk

theorem liAux_get? (cs : List Char) (c : Char) :
    ∀ n, liAux cs c n = -1 ∨
      (0 ≤ liAux cs c n ∧ cs.get? (liAux cs c n).toNat = some c) := by
  intro n
  induction n with
  | zero => exact Or.inl rfl
  | succ k ih =>
    rw [liAux_succ]
    by_cases hk : cs.get? k = some c
    · rw [if_pos hk]
      refine Or.inr ⟨by omega, ?_⟩
      simpa using hk
    · rw [if_neg hk]
      exact ih

theorem lastIndexOf_ge (cs : List Char) (c : Char) (i : Nat)
    (h : cs.get? i = some c) : (i : Int) ≤ lastIndexOf cs c := by
  have hlen : i < cs.length := by
    rcases List.get?_eq_some.mp h with ⟨hlt, _⟩
    exact hlt
  exact le_liAux_of_get? cs c i h cs.length hlen

theorem get?_lastIndexOf (cs : List Char) (c : Char)
    (h : lastIndexOf cs c ≠ -1) :
    0 ≤ lastIndexOf cs c ∧ cs.get? (lastIndexOf cs c).toNat = some c := by
  rcases liAux_get? cs c cs.length with h1 | h1
  · exact absurd h1 h
  · exact h1

theorem get?_ne_of_lastIndexOf_lt (cs : List Char) (c : Char) (j : Nat)
    (h : lastIndexOf cs c < (j : Int)) : cs.get? j ≠ some c :=
  fun hc => absurd (lastIndexOf_ge cs c j hc) (not_le.mpr h)

theorem lastIndexOf_ge_neg_one (cs : List Char) (c : Char) :
    -1 ≤ lastIndexOf cs c :=
  liAux_ge_neg_one cs c cs.length

theorem mem_of_strStartsWith_slash (s : String)
    (h : strStartsWith s "/" = true) : '/' ∈ s.data := by
  unfold strStartsWith at h
  rw [show s.toList = s.data from rfl] at h
  cases hd : s.data with
  | nil =>
    rw [hd] at h
    simp [List.isPrefixOf] at h
  | cons c cs =>
    rw [hd] at h
    have hc : '/' = c := by
      simpa [List.isPrefixOf] using h
    rw [← hc]
    exact List.mem_cons_self _ _

theorem basename_data (x : String) :
    (basename x).data = x.data.drop ((lastIndexOf x.data '/') + 1).toNat :=
  rfl

theorem slash_not_mem_basename (x : String) : '/' ∉ (basename x).data := by
  intro hmem
  rw [basename_data] at hmem
  obtain ⟨i, hi⟩ := List.mem_iff_get?.mp hmem
  rw [List.get?_drop] at hi
  refine get?_ne_of_lastIndexOf_lt x.data '/'
    (((lastIndexOf x.data '/') + 1).toNat + i) ?_ hi
  have hm1 := lastIndexOf_ge_neg_one x.data '/'
  omega

theorem basename_of_append (w bd : List Char) (hb : '/' ∉ bd) (x : String)
    (hx : x.data = w ++ bd) :
    ∃ z, (basename x).data = z ++ bd := by
  rw [basename_data, hx]
  have hle : ((lastIndexOf (w ++ bd) '/') + 1).toNat ≤ w.length := by
    by_cases h0 : lastIndexOf (w ++ bd) '/' = -1
    · rw [h0]
      simp
    · obtain ⟨hge, hget⟩ := get?_lastIndexOf (w ++ bd) '/' h0
      by_contra hgt
      push_neg at hgt
      have hwlen : w.length ≤ (lastIndexOf (w ++ bd) '/').toNat := by omega
      rw [List.get?_append_right hwlen] at hget
      exact hb (List.get?_mem hget)
  refine ⟨w.drop ((lastIndexOf (w ++ bd) '/') + 1).toNat, ?_⟩
  rw [List.drop_append_eq_append_drop,
    Nat.sub_eq_zero_of_le hle, List.drop_zero]

theorem splitext_stem_shape (x : String) :
    (splitext x).1 = x ∨
    ((splitext x).1).data = x.data.take (lastIndexOf x.data '.').toNat := by
  unfold splitext
  dsimp only
  split
  · split
    · exact Or.inl rfl
    · exact Or.inr rfl
  · exact Or.inl rfl

theorem mem_of_mem_stem (x : String) (c : Char)
    (h : c ∈ ((splitext x).1).data) : c ∈ x.data := by
  rcases splitext_stem_shape x with hs | hs
  · rw [hs] at h
    exact h
  · rw [hs] at h
    exact List.take_subset _ _ h

theorem digitChar_ne_slash (k : Nat) : Nat.digitChar k ≠ '/' := by
  rcases Nat.lt_or_ge k 16 with h | h
  · interval_cases k <;> decide
  · unfold Nat.digitChar
    repeat rw [if_neg (by omega)]
    decide

theorem toDigitsCore_chars (b f : Nat) :
    ∀ (n : Nat) (acc : List Char), ∀ c ∈ Nat.toDigitsCore b f n acc,
      c ∈ acc ∨ ∃ k, c = Nat.digitChar k := by
  induction f with
  | zero =>
    intro n acc c hc
    exact Or.inl hc
  | succ f ih =>
    intro n acc c hc
    unfold Nat.toDigitsCore at hc
    dsimp only at hc
    split at hc
    · rcases List.mem_cons.mp hc with h | h
      · exact Or.inr ⟨n % b, h⟩
      · exact Or.inl h
    · rcases ih (n / b) (Nat.digitChar (n % b) :: acc) c hc with h | h
      · rcases List.mem_cons.mp h with h2 | h2
        · exact Or.inr ⟨n % b, h2⟩
        · exact Or.inl h2
      · exact Or.inr h

theorem toString_nat_no_slash (k : Nat) : '/' ∉ (toString k).data := by
  intro h
  have h2 : '/' ∈ Nat.toDigitsCore 10 (k + 1) k [] := h
  rcases toDigitsCore_chars 10 (k + 1) k [] '/' h2 with h3 | ⟨j, h3⟩
  · simp at h3
  · exact digitChar_ne_slash j h3.symm

/-- No string equals its own splitext stem extended by the marker,
an arbitrary index chunk and the .srt extension, with anything in
front: the lengths cannot match (whole-string stem), and in the
split case the last dot sits beyond the stem length. -/
theorem stem_self_append_absurd (bv : String) (z nd : List Char)
    (hz2 : bv.data = (z ++ (((splitext bv).1.data
      ++ "_extracted_track_".data) ++ nd)) ++ ".srt".data) : False := by
  have hm : ("_extracted_track_".data).length = 17 := by decide
  have hsrt : (".srt".data).length = 4 := by decide
  rcases splitext_stem_shape bv with hs | hs
  · rw [hs] at hz2
    have hlen := congrArg List.length hz2
    simp [List.length_append] at hlen
    omega
  · have hdot : bv.data.get? (z ++ (((splitext bv).1.data
        ++ "_extracted_track_".data) ++ nd)).length = some '.' := by
      rw [hz2, List.get?_append_right (le_refl _)]
      simp
    have hge := lastIndexOf_ge bv.data '.' _ hdot
    have hlen2 := congrArg List.length hs
    rw [List.length_take] at hlen2
    have hlen3 := congrArg List.length hz2
    simp [List.length_append] at hlen2 hlen3 hge
    omega

/-- The deterministic temporary path never coincides with the video
path it was derived from: its stem would have to contain itself
followed by the non-empty marker. -/
theorem tempPathFor_ne_video (env : Env) (vp : String) (t : TrackDescriptor) :
    tempPathFor env vp t ≠ vp := by
  intro h
  unfold tempPathFor at h
  have hnsb : '/' ∉ ((splitext (basename vp)).1 ++ "_extracted_track_"
      ++ toString t.index ++ ".srt").data := by
    intro hmem
    have hmem2 : '/' ∈ (((splitext (basename vp)).1.data
        ++ "_extracted_track_".data) ++ (toString t.index).data)
        ++ ".srt".data := hmem
    rcases List.mem_append.mp hmem2 with h1 | h1
    · rcases List.mem_append.mp h1 with h2 | h2
      · rcases List.mem_append.mp h2 with h3 | h3
        · exact slash_not_mem_basename vp (mem_of_mem_stem (basename vp) '/' h3)
        · revert h3
          decide
      · exact toString_nat_no_slash t.index h2
    · revert h1
      decide
  have hw2 : ∀ w : List Char,
      vp.data = w ++ ((splitext (basename vp)).1 ++ "_extracted_track_"
        ++ toString t.index ++ ".srt").data → False := by
    intro w hw
    obtain ⟨z, hz⟩ := basename_of_append w _ hnsb vp hw
    refine stem_self_append_absurd (basename vp) z (toString t.index).data ?_
    rw [hz]
    simp [List.append_assoc]
  unfold joinPath at h
  split at h
  · rename_i hsw
    exact hnsb (mem_of_strStartsWith_slash _ hsw)
  · split at h
    · exact hw2 env.tempDir.data (congrArg String.data h).symm
    · exact hw2 (env.tempDir ++ "/").data (congrArg String.data h).symm

/-- The probe performs no invocation at all or exactly the one ffprobe
invocation; in particular it never issues an extraction request. -/
theorem probe_calls_shape (env : Env) (vp : String) :
    (get_subtitle_tracks env vp).2 = [] ∨
    (get_subtitle_tracks env vp).2 = [ExtCall.ffprobe vp] := by
  unfold get_subtitle_tracks
  by_cases h1 : env.pathExists vp = false
  · rw [if_pos h1]
    exact Or.inl rfl
  · rw [if_neg h1]
    by_cases h2 : env.pathExists env.ffprobePath = false
    · rw [if_pos h2]
      exact Or.inl rfl
    · rw [if_neg h2]
      cases env.probeRun with
      | fail => exact Or.inr rfl
      | done rc out =>
        dsimp only
        by_cases h3 : rc ≠ 0
        · rw [if_pos h3]
          exact Or.inr rfl
        · rw [if_neg h3]
          cases out with
          | none => exact Or.inr rfl
          | some streams => exact Or.inr rfl

theorem scanBest_eq_none_of_all (lang : String) :
    ∀ ts : List TrackDescriptor,
      (∀ t ∈ ts, langMatches t lang = false) → scanBest lang ts = none := by
  intro ts
  induction ts with
  | nil => intro _; rfl
  | cons t ts ih =>
    intro h
    unfold scanBest
    rw [h t (List.mem_cons_self t ts)]
    simp [ih (fun u hu => h u (List.mem_cons_of_mem t hu))]

theorem scanBest_eq_some_first (lang : String) :
    ∀ (ts : List TrackDescriptor) (i : Nat) (t : TrackDescriptor),
      ts.get? i = some t → langMatches t lang = true →
      (∀ j u, j < i → ts.get? j = some u → langMatches u lang = false) →
      scanBest lang ts = some i := by
  intro ts
  induction ts with
  | nil => intro i t h _ _; simp at h
  | cons a ts ih =>
    intro i t hget hmatch hfirst
    cases i with
    | zero =>
      have ha : a = t := by simpa using hget
      unfold scanBest
      rw [ha, hmatch]
      simp
    | succ j =>
      have h0 : langMatches a lang = false := hfirst 0 a (Nat.succ_pos j) rfl
      unfold scanBest
      rw [h0]
      have hrec := ih j t (by simpa using hget) hmatch
        (fun k u hk hu => hfirst (k + 1) u (Nat.succ_lt_succ hk) (by simpa using hu))
      simp [hrec]

/-! ## Claim theorems -/

/-- Claim C7: for every non-existent video path, the probe returns the
empty track list and performs no external invocation (the embedded
function is total, so no error can be raised). -/
theorem probe_nonexistent_path (env : Env) (vp : String)
    (h : env.pathExists vp = false) :
    get_subtitle_tracks env vp = ([], []) := by
  unfold get_subtitle_tracks
  rw [h]
  simp

/-- Witness for C7 at a concrete environment in which no path exists. -/
theorem probe_nonexistent_path_witness :
    envNoFiles.pathExists "/videos/movie.mkv" = false ∧
    get_subtitle_tracks envNoFiles "/videos/movie.mkv" = ([], []) :=
  ⟨rfl, probe_nonexistent_path envNoFiles "/videos/movie.mkv" rfl⟩

/-- Claim C4: the extractor returns true only when the ffmpeg
executable is present, its run finished with exit code zero, and the
extension-rewritten output path exists afterwards; a failed run
(exception or timeout) or a missing executable always yields false.
The embedded function is total, so nothing is raised. -/
theorem extract_success_characterization (env : Env) (vp : String)
    (idx : Nat) (outp codec : String) :
    ((extract_subtitle_track env vp idx outp codec).1 = true →
      env.pathExists env.ffmpegPath = true ∧
      env.ffmpegRun = RunOutcome.done 0 () ∧
      env.existsAfter ((splitext outp).1 ++ "." ++ format_map codec) = true) ∧
    (env.ffmpegRun = RunOutcome.fail →
      (extract_subtitle_track env vp idx outp codec).1 = false) ∧
    (env.pathExists env.ffmpegPath = false →
      (extract_subtitle_track env vp idx outp codec).1 = false) := by
  refine ⟨?_, ?_, ?_⟩
  · intro hs
    unfold extract_subtitle_track at hs
    by_cases h1 : env.pathExists env.ffmpegPath = false
    · rw [if_pos h1] at hs
      simp at hs
    · rw [if_neg h1] at hs
      refine ⟨by revert h1; cases env.pathExists env.ffmpegPath <;> simp, ?_⟩
      cases hr : env.ffmpegRun with
      | fail => rw [hr] at hs; simp at hs
      | done rc out =>
        rw [hr] at hs
        simp only [Bool.and_eq_true, beq_iff_eq] at hs
        cases out
        exact ⟨by rw [hs.1], hs.2⟩
  · intro hr
    unfold extract_subtitle_track
    rw [hr]
    split <;> rfl
  · intro h1
    unfold extract_subtitle_track
    rw [if_pos h1]

/-- Witness for C4: a run that fails (timeout or exception) yields
false. -/
theorem extract_success_characterization_witness :
    (extract_subtitle_track envClean "/videos/movie.mkv" 3
        "/tmp/movie_extracted_track_3.srt" "subrip").1 = false :=
  (extract_success_characterization envClean "/videos/movie.mkv" 3
      "/tmp/movie_extracted_track_3.srt" "subrip").2.1 rfl

/-- Claim C6: the extension of the caller-supplied output path is
rewritten to the format resolved from the codec name before the
external request is built, with the documented codec-to-format map and
the srt default; in particular output path x.txt with codec webvtt
produces a request targeting x.vtt. -/
theorem extract_output_extension_rewrite (env : Env) (vp : String)
    (idx : Nat) (outp codec : String)
    (hff : env.pathExists env.ffmpegPath = true) :
    (extract_subtitle_track env vp idx outp codec).2 =
      [ExtCall.ffmpeg vp idx (if codec = "ass" then "copy" else "srt")
        ((splitext outp).1 ++ "." ++ format_map codec)] ∧
    format_map "subrip" = "srt" ∧ format_map "ass" = "ass" ∧
    format_map "webvtt" = "vtt" ∧ format_map "mov_text" = "srt" ∧
    (codec ≠ "subrip" → codec ≠ "ass" → codec ≠ "webvtt" →
      codec ≠ "mov_text" → format_map codec = "srt") ∧
    (splitext "x.txt").1 ++ "." ++ format_map "webvtt" = "x.vtt" := by
  refine ⟨?_, by decide, by decide, by decide, by decide, ?_, by decide⟩
  · unfold extract_subtitle_track
    rw [hff]
    cases env.ffmpegRun <;> simp
  · intro h1 h2 h3 h4
    unfold format_map
    rw [if_neg h1, if_neg h2, if_neg h3, if_neg h4]

/-- Witness for C6: the concrete x.txt / webvtt call targets x.vtt. -/
theorem extract_output_extension_rewrite_witness :
    (extract_subtitle_track envA "/videos/movie.mkv" 3 "x.txt" "webvtt").2 =
      [ExtCall.ffmpeg "/videos/movie.mkv" 3 "srt" "x.vtt"] := by
  have h := (extract_output_extension_rewrite envA "/videos/movie.mkv" 3
    "x.txt" "webvtt" rfl).1
  simpa using h

/-- Claim C5: the ranker returns none on the empty list, the position
of the first case-insensitive language match on a list that has one,
and position 0 on a non-empty list without a match. -/
theorem get_best_subtitle_track_spec (tracks : List TrackDescriptor)
    (lang : String) :
    (tracks = [] → get_best_subtitle_track tracks lang = none) ∧
    (tracks ≠ [] → (∀ t ∈ tracks, langMatches t lang = false) →
      get_best_subtitle_track tracks lang = some 0) ∧
    (∀ i t, tracks.get? i = some t → langMatches t lang = true →
      (∀ j u, j < i → tracks.get? j = some u → langMatches u lang = false) →
      get_best_subtitle_track tracks lang = some i) := by
  refine ⟨?_, ?_, ?_⟩
  · intro h
    unfold get_best_subtitle_track
    rw [if_pos h]
  · intro hne hall
    unfold get_best_subtitle_track
    rw [if_neg hne, scanBest_eq_none_of_all lang tracks hall]
  · intro i t hget hmatch hfirst
    have hne : tracks ≠ [] := by
      intro h
      rw [h] at hget
      simp at hget
    unfold get_best_subtitle_track
    rw [if_neg hne, scanBest_eq_some_first lang tracks i t hget hmatch hfirst]

/-- Witness for C5: with the preferred language in upper case, the
ranker returns the list position (1) of the first match, not the
stream index (3) of that descriptor. -/
theorem get_best_subtitle_track_spec_witness :
    get_best_subtitle_track [tEn, tEs] "ES" = some 1 :=
  (get_best_subtitle_track_spec [tEn, tEs] "ES").2.2 1 tEs rfl (by decide)
    (by
      intro j u hj hu
      have hj0 : j = 0 := Nat.lt_one_iff.mp hj
      subst hj0
      have hu2 : tEn = u := by simpa using hu
      rw [← hu2]
      decide)

/-- Counterexample to C1 as stated: an existing path that does not
reside under the temporary directory, but contains the temporary
directory as a substring and carries the marker in its basename, is
deleted by the cleaner. -/
theorem cleanup_deletes_outside_tempdir :
    envClean.pathExists "/home/user/tmp_extracted_track_1.srt" = true ∧
    residesUnderDir "/home/user/tmp_extracted_track_1.srt" envClean.tempDir = false ∧
    cleanup_extracted_subtitle envClean "/home/user/tmp_extracted_track_1.srt" =
      CleanupAction.removed "/home/user/tmp_extracted_track_1.srt" := by
  decide

/-- Claim C1 (amended): the cleaner deletes its argument exactly when
the path is non-empty, exists, contains the temporary-directory path
as a substring (not necessarily as a leading directory) and its
basename contains the literal marker; in every other case, and for
every other target, it deletes nothing. -/
theorem cleanup_guard_characterization (env : Env) (p : String) :
    (cleanup_extracted_subtitle env p = CleanupAction.removed p ↔
      (p ≠ "" ∧ env.pathExists p = true ∧
       containsSub env.tempDir p = true ∧
       containsSub "_extracted_track_" (basename p) = true)) ∧
    (cleanup_extracted_subtitle env p = CleanupAction.noop ∨
     cleanup_extracted_subtitle env p = CleanupAction.removed p) := by
  unfold cleanup_extracted_subtitle
  split
  · rename_i h1
    split
    · rename_i h2
      exact ⟨⟨fun _ => ⟨h1.1, h1.2, h2.1, h2.2⟩, fun _ => rfl⟩, Or.inr rfl⟩
    · rename_i h2
      refine ⟨⟨fun h => absurd h (by simp), fun hr => absurd ⟨hr.2.2.1, hr.2.2.2⟩ h2⟩,
        Or.inl rfl⟩
  · rename_i h1
    refine ⟨⟨fun h => absurd h (by simp), fun hr => absurd ⟨hr.1, hr.2.1⟩ h1⟩,
      Or.inl rfl⟩

/-- Witness for C1 (amended): the guard fires on a marker-named file
directly under the temporary directory. -/
theorem cleanup_guard_characterization_witness :
    cleanup_extracted_subtitle envClean "/tmp/movie_extracted_track_3.srt" =
      CleanupAction.removed "/tmp/movie_extracted_track_3.srt" :=
  (cleanup_guard_characterization envClean
      "/tmp/movie_extracted_track_3.srt").1.mpr (by decide)

/-- Counterexample to C3 as stated: with an empty probe result the
pre-supplied descriptor is not used at all; the guard on the empty
track list runs first, so resolution (and the orchestrator) yield
none rather than the pre-supplied descriptor. -/
theorem presupplied_descriptor_counterexample :
    resolve_selection envEmpty.dialog false [] (some tPre) false "en" = none ∧
    (get_subtitle_tracks envEmpty "/videos/movie.mkv").1 = [] ∧
    (extract_best_subtitle_for_alass envEmpty "/videos/movie.mkv" false
        (some tPre) false "en").1 = none := by
  decide

/-- Claim C3 (amended): whenever the probed track list is non-empty, a
pre-supplied descriptor is used verbatim, without validation against
the probe; hence two resolutions with the same pre-supplied descriptor
agree with each other for all non-empty probe results, dialog
collaborators and modes. -/
theorem presupplied_descriptor_used_verbatim
    (dlg dlg' : List TrackDescriptor → Option TrackDescriptor)
    (pw pw' : Bool) (tracks tracks' : List TrackDescriptor)
    (t : TrackDescriptor) (a a' : Bool) (lang lang' : String)
    (h : tracks ≠ []) (h' : tracks' ≠ []) :
    resolve_selection dlg pw tracks (some t) a lang = some t ∧
    resolve_selection dlg' pw' tracks' (some t) a' lang' =
      resolve_selection dlg pw tracks (some t) a lang := by
  unfold resolve_selection
  rw [if_neg h, if_neg h']
  exact ⟨rfl, rfl⟩

/-- Witness for C3 (amended) on two different non-empty probe results
and modes. -/
theorem presupplied_descriptor_used_verbatim_witness :
    resolve_selection envA.dialog false [tEn] (some tPre) false "en" = some tPre ∧
    resolve_selection envClean.dialog true [tEs, tEn] (some tPre) true "es" =
      resolve_selection envA.dialog false [tEn] (some tPre) false "en" :=
  presupplied_descriptor_used_verbatim envA.dialog envClean.dialog false true
    [tEn] [tEs, tEn] tPre false true "en" "es" (by decide) (by decide)

/-- Reduction of the orchestrator once a descriptor has been resolved:
the result is the guarded extraction outcome and the probe invocations
followed by the extraction invocations. -/
theorem extract_best_resolved (env : Env) (vp : String) (pw : Bool)
    (st : Option TrackDescriptor) (auto : Bool) (lang : String)
    (t : TrackDescriptor) (hvp : env.pathExists vp = true)
    (hres : resolve_selection env.dialog pw (get_subtitle_tracks env vp).1
      st auto lang = some t) :
    extract_best_subtitle_for_alass env vp pw st auto lang =
      (if (extract_subtitle_track env vp t.index (tempPathFor env vp t)
            t.codec_name).1 && env.existsAfter (tempPathFor env vp t)
       then some (tempPathFor env vp t) else none,
       (get_subtitle_tracks env vp).2
         ++ (extract_subtitle_track env vp t.index (tempPathFor env vp t)
              t.codec_name).2) := by
  unfold extract_best_subtitle_for_alass
  split
  · rename_i hc
    rw [hvp] at hc
    simp at hc
  · rw [hres]
    cases hb : ((extract_subtitle_track env vp t.index (tempPathFor env vp t)
        t.codec_name).1 && env.existsAfter (tempPathFor env vp t)) <;>
      simp [hb]

/-- Counterexample to C2 as stated: with an advanced-styled (ass)
track the resolver yields a descriptor and the extractor reports
success (the .ass output exists), yet the reference file handed to the
synchronizer is the original video, because the orchestrator checks
its .srt-named temporary path, which the extraction never wrote. -/
theorem extractor_success_reference_counterexample :
    resolve_selection envAss.dialog false
        (get_subtitle_tracks envAss "/videos/movie.mkv").1 none true "es" =
      some ⟨3, "ass", "es", "Spanish", "Track 2 (es) - Spanish [ass]"⟩ ∧
    (extract_subtitle_track envAss "/videos/movie.mkv" 3
        (tempPathFor envAss "/videos/movie.mkv"
          ⟨3, "ass", "es", "Spanish", "Track 2 (es) - Spanish [ass]"⟩)
        "ass").1 = true ∧
    (run_alass_with_subtitle_track envAss "/videos/movie.mkv" "s.srt" "o.srt"
        [] none false true "es").1.reference_file = "/videos/movie.mkv" := by
  decide

/-- Claim C2 (amended): whenever the resolver yields a descriptor, the
extractor reports success AND the .srt-named temporary path exists
after extraction, the orchestrator returns that temporary path and the
reference file handed to the synchronizer is exactly that extracted
temporary path, which is never the original video path. -/
theorem resolved_success_reference_is_extracted (env : Env)
    (vp sp op : String) (args : List String) (st : Option TrackDescriptor)
    (pw auto : Bool) (lang : String) (t : TrackDescriptor)
    (hvp : env.pathExists vp = true)
    (hres : resolve_selection env.dialog pw (get_subtitle_tracks env vp).1
      st auto lang = some t)
    (hsucc : (extract_subtitle_track env vp t.index (tempPathFor env vp t)
      t.codec_name).1 = true)
    (hchk : env.existsAfter (tempPathFor env vp t) = true) :
    (extract_best_subtitle_for_alass env vp pw st auto lang).1 =
      some (tempPathFor env vp t) ∧
    (run_alass_with_subtitle_track env vp sp op args st pw auto lang).1.reference_file
      = tempPathFor env vp t ∧
    (run_alass_with_subtitle_track env vp sp op args st pw auto lang).1.reference_file
      ≠ vp := by
  have hbest : (extract_best_subtitle_for_alass env vp pw st auto lang).1 =
      some (tempPathFor env vp t) := by
    rw [extract_best_resolved env vp pw st auto lang t hvp hres]
    simp [hsucc, hchk]
  have href : (run_alass_with_subtitle_track env vp sp op args st pw auto
      lang).1.reference_file = tempPathFor env vp t := by
    simp only [run_alass_with_subtitle_track, hbest]
    rw [if_neg (tempPathFor_ne_empty env vp t)]
  refine ⟨hbest, href, ?_⟩
  rw [href]
  exact tempPathFor_ne_video env vp t

/-- Witness for C2 (amended), which is exactly the end-to-end scenario
of the claim: two descriptors (en at position 0, es at position 1),
auto-select with preferred language es; the resolver picks the
descriptor at position 1 (stream index 3), the extraction request maps
stream 3, and the reference file is the extracted temporary path, not
the original video. -/
theorem resolved_success_reference_is_extracted_witness :
    (run_alass_with_subtitle_track envA "/videos/movie.mkv" "s.srt" "o.srt"
        [] none false true "es").1.reference_file =
      tempPathFor envA "/videos/movie.mkv" tEs ∧
    tempPathFor envA "/videos/movie.mkv" tEs =
      "/tmp/movie_extracted_track_3.srt" ∧
    ("/tmp/movie_extracted_track_3.srt" = "/videos/movie.mkv") = False ∧
    resolve_selection envA.dialog false
        (get_subtitle_tracks envA "/videos/movie.mkv").1 none true "es" =
      some tEs ∧
    (extract_subtitle_track envA "/videos/movie.mkv" 3
        (tempPathFor envA "/videos/movie.mkv" tEs) "subrip").2 =
      [ExtCall.ffmpeg "/videos/movie.mkv" 3 "srt"
        "/tmp/movie_extracted_track_3.srt"] :=
  ⟨(resolved_success_reference_is_extracted envA "/videos/movie.mkv" "s.srt"
      "o.srt" [] none false true "es" tEs rfl (by decide) (by decide) rfl).2.1,
   by decide, by decide, by decide, by decide⟩

/-- Reduction of the orchestrator when the probe yields no tracks: no
extracted path comes back and no extraction request is issued. -/
theorem extract_best_no_tracks (env : Env) (vp : String) (pw : Bool)
    (st : Option TrackDescriptor) (auto : Bool) (lang : String)
    (h : (get_subtitle_tracks env vp).1 = []) :
    (extract_best_subtitle_for_alass env vp pw st auto lang).1 = none ∧
    ∀ c ∈ (extract_best_subtitle_for_alass env vp pw st auto lang).2,
      isExtractCall c = false := by
  unfold extract_best_subtitle_for_alass
  split
  · refine ⟨rfl, ?_⟩
    intro c hc
    simp at hc
  · rw [h]
    have hres : resolve_selection env.dialog pw [] st auto lang = none := rfl
    rw [hres]
    dsimp only
    refine ⟨rfl, ?_⟩
    intro c hc
    rcases probe_calls_shape env vp with hcs | hcs <;> rw [hcs] at hc
    · simp at hc
    · simp at hc
      rw [hc]
      rfl

/-- Claim C8: when the probe returns zero descriptors the reference
file equals the original video path, and no extraction request is ever
issued, so no temporary extracted-subtitle file is created. -/
theorem no_tracks_reference_fallback (env : Env) (vp sp op : String)
    (args : List String) (st : Option TrackDescriptor) (pw auto : Bool)
    (lang : String) (h : (get_subtitle_tracks env vp).1 = []) :
    (run_alass_with_subtitle_track env vp sp op args st pw auto
      lang).1.reference_file = vp ∧
    (run_alass_with_subtitle_track env vp sp op args st pw auto
      lang).2.all (fun c => !isExtractCall c) = true := by
  obtain ⟨h1, h2⟩ := extract_best_no_tracks env vp pw st auto lang h
  constructor
  · simp only [run_alass_with_subtitle_track, h1]
  · simp only [run_alass_with_subtitle_track, List.all_append]
    rw [Bool.and_eq_true]
    constructor
    · rw [List.all_eq_true]
      intro c hc
      simp [h2 c hc]
    · simp [isExtractCall]

/-- Witness for C8 at a concrete environment whose probe parses zero
streams. -/
theorem no_tracks_reference_fallback_witness :
    (run_alass_with_subtitle_track envEmpty "/videos/movie.mkv" "s.srt"
      "o.srt" [] none false true "es").1.reference_file = "/videos/movie.mkv" ∧
    (run_alass_with_subtitle_track envEmpty "/videos/movie.mkv" "s.srt"
      "o.srt" [] none false true "es").2.all (fun c => !isExtractCall c) = true :=
  no_tracks_reference_fallback envEmpty "/videos/movie.mkv" "s.srt" "o.srt"
    [] none false true "es" (by decide)

/-- Claim C10 (implicit invariant): for every resolved descriptor the
temporary reference path always carries the .srt extension regardless
of the codec of the track; the extraction request targets the path
with the codec-resolved extension instead; and the orchestrator
returns the extracted path exactly when the extractor succeeded and
the .srt-named path exists afterwards (its post-extraction existence
check tests the .srt path, not the written one). -/
theorem temp_reference_extension_invariant (env : Env) (vp : String)
    (pw : Bool) (st : Option TrackDescriptor) (auto : Bool) (lang : String)
    (t : TrackDescriptor) (hvp : env.pathExists vp = true)
    (hres : resolve_selection env.dialog pw (get_subtitle_tracks env vp).1
      st auto lang = some t)
    (hff : env.pathExists env.ffmpegPath = true) :
    (∃ u, tempPathFor env vp t = u ++ ".srt") ∧
    (extract_subtitle_track env vp t.index (tempPathFor env vp t)
        t.codec_name).2 =
      [ExtCall.ffmpeg vp t.index (if t.codec_name = "ass" then "copy" else "srt")
        ((splitext (tempPathFor env vp t)).1 ++ "." ++ format_map t.codec_name)] ∧
    ((extract_best_subtitle_for_alass env vp pw st auto lang).1 =
        some (tempPathFor env vp t) ↔
      ((extract_subtitle_track env vp t.index (tempPathFor env vp t)
          t.codec_name).1 = true ∧
       env.existsAfter (tempPathFor env vp t) = true)) := by
  refine ⟨?_, ?_, ?_⟩
  · unfold tempPathFor joinPath
    split
    · exact ⟨_, rfl⟩
    · split
      · exact ⟨env.tempDir ++ ((splitext (basename vp)).1
          ++ "_extracted_track_" ++ toString t.index),
          (String.append_assoc _ _ _).symm⟩
      · exact ⟨env.tempDir ++ "/" ++ ((splitext (basename vp)).1
          ++ "_extracted_track_" ++ toString t.index),
          (String.append_assoc _ _ _).symm⟩
  · unfold extract_subtitle_track
    rw [hff]
    cases env.ffmpegRun <;> simp
  · rw [extract_best_resolved env vp pw st auto lang t hvp hres]
    cases hb : ((extract_subtitle_track env vp t.index (tempPathFor env vp t)
        t.codec_name).1 && env.existsAfter (tempPathFor env vp t)) with
    | true =>
      have hb2 : (extract_subtitle_track env vp t.index (tempPathFor env vp t)
          t.codec_name).1 = true ∧ env.existsAfter (tempPathFor env vp t) = true := by
        simpa using hb
      simp [hb2]
    | false =>
      constructor
      · intro hcontr
        simp at hcontr
      · intro hcontr
        rw [hcontr.1, hcontr.2] at hb
        simp at hb

/-- Claim C9: the display name of every probed descriptor follows the
deterministic composition rule (Track part with 1-based position, then
optional language, title and codec parts, space-joined, absent parts
omitted); at the concrete probe of the envA scenario, the descriptor
with index 2, language en, title English and codec subrip at list
position 0 renders as Track 1 (en) - English [subrip]. -/
theorem display_name_composition :
    (∀ (i : Nat) (s : RawStream),
      (mkTrackInfo i s).display_name =
        displayNameSpec (i + 1) (s.language.getD "unknown") (s.title.getD "")
          (s.codec_name.getD "unknown")) ∧
    (get_subtitle_tracks envA "/videos/movie.mkv").1 =
      [⟨2, "subrip", "en", "English", "Track 1 (en) - English [subrip]"⟩,
       ⟨3, "subrip", "es", "Spanish", "Track 2 (es) - Spanish [subrip]"⟩] := by
  constructor
  · intro i s
    unfold mkTrackInfo displayNameSpec
    by_cases h1 : s.language.getD "unknown" ≠ "unknown" <;>
      by_cases h2 : s.title.getD "" ≠ "" <;>
        by_cases h3 : s.codec_name.getD "unknown" ≠ "unknown" <;>
          simp [h1, h2, h3]
  · decide

/-- Witness for C10 at the concrete envA scenario with the resolved
Spanish descriptor. -/
theorem temp_reference_extension_invariant_witness :
    (∃ u, tempPathFor envA "/videos/movie.mkv" tEs = u ++ ".srt") ∧
    (extract_subtitle_track envA "/videos/movie.mkv" tEs.index
        (tempPathFor envA "/videos/movie.mkv" tEs) tEs.codec_name).2 =
      [ExtCall.ffmpeg "/videos/movie.mkv" tEs.index
        (if tEs.codec_name = "ass" then "copy" else "srt")
        ((splitext (tempPathFor envA "/videos/movie.mkv" tEs)).1 ++ "."
          ++ format_map tEs.codec_name)] ∧
    ((extract_best_subtitle_for_alass envA "/videos/movie.mkv" false none
        true "es").1 = some (tempPathFor envA "/videos/movie.mkv" tEs) ↔
      ((extract_subtitle_track envA "/videos/movie.mkv" tEs.index
          (tempPathFor envA "/videos/movie.mkv" tEs) tEs.codec_name).1 = true ∧
       envA.existsAfter (tempPathFor envA "/videos/movie.mkv" tEs) = true)) :=
  temp_reference_extension_invariant envA "/videos/movie.mkv" false none
    true "es" tEs rfl (by decide) rfl
